import Mathlib

/-!
Verification development for the wave-test repository: a shallow embedding of
the compute-dispatch-and-readback pipeline (src/gpu.rs), the windowed session
owner (src/app/gpu.rs, src/app/ui.rs) and the surrounding error handling,
together with theorems settling the specified properties.

Machine integers are modelled as `Nat`/`Int`; 32-bit IEEE-754 floats are
modelled exactly, as `nan`, signed infinities, or an exact rational value,
with round-to-nearest-even on operations.
-/

/-! ## IEEE-754 binary32 value model

`f32` values are NaN, a signed infinity, or a finite value represented by the
exact rational it denotes (the sign of zero is collapsed to `0`, which is
adequate here: only `* 255.0` and `as u8` consume these values, and both send
`-0.0` and `0.0` to the same result). -/

inductive F32 where
  | nan : F32
  | inf : Bool → F32
  | fin : ℚ → F32
deriving DecidableEq

/-- Round a rational to the nearest integer, ties to even. -/
def rneInt (r : ℚ) : ℤ :=
  if r - ⌊r⌋ < 1/2 then ⌊r⌋
  else if 1/2 < r - ⌊r⌋ then ⌊r⌋ + 1
  else if ⌊r⌋ % 2 = 0 then ⌊r⌋ else ⌊r⌋ + 1

/-- Exponent of the binary32 rounding grid around the magnitude `|x|`:
`Int.log 2 |x| - 23` for normal magnitudes, clamped at `-149` once the
magnitude falls into the subnormal range. -/
def f32grid (x : ℚ) : ℤ := max (Int.log 2 |x| - 23) (-149)

/-- Integer significand obtained by rounding `|x|` onto its binary32 grid. -/
def f32mant (x : ℚ) : ℤ := rneInt (|x| / (2:ℚ)^(f32grid x))

/-- Magnitude of the binary32 rounding of `x` (before the overflow check). -/
def f32val (x : ℚ) : ℚ := (f32mant x : ℚ) * (2:ℚ)^(f32grid x)

/-- Round an exact rational to the nearest binary32 value (round to nearest,
ties to even; magnitudes reaching `2^128` overflow to infinity). -/
def roundF32 (x : ℚ) : F32 :=
  if x = 0 then F32.fin 0
  else if (2:ℚ)^(128:ℤ) ≤ f32val x then F32.inf (decide (x < 0))
  else if x < 0 then F32.fin (-(f32val x)) else F32.fin (f32val x)

/-- Reinterpret a 32-bit pattern (sign, 8 exponent bits, 23 mantissa bits) as
the `f32` it encodes. -/
def bitsToF32 (b : Nat) : F32 :=
  if b / 2^23 % 2^8 = 255 then
    if b % 2^23 = 0 then F32.inf (decide (b / 2^31 % 2 = 1)) else F32.nan
  else if b / 2^23 % 2^8 = 0 then
    F32.fin ((if b / 2^31 % 2 = 1 then (-1:ℚ) else 1) * (b % 2^23 : ℕ) * (2:ℚ)^(-149:ℤ))
  else
    F32.fin ((if b / 2^31 % 2 = 1 then (-1:ℚ) else 1) * ((2^23 + b % 2^23 : ℕ) : ℚ) *
      (2:ℚ)^(((b / 2^23 % 2^8 : ℕ) : ℤ) - 150))

/-- IEEE-754 binary32 multiplication on the value model. -/
def f32mul : F32 → F32 → F32
  | F32.nan, _ => F32.nan
  | _, F32.nan => F32.nan
  | F32.inf s, F32.inf t => F32.inf (s != t)
  | F32.inf s, F32.fin q => if q = 0 then F32.nan else F32.inf (s != decide (q < 0))
  | F32.fin q, F32.inf s => if q = 0 then F32.nan else F32.inf (s != decide (q < 0))
  | F32.fin p, F32.fin q => roundF32 (p * q)

/-- Rust's saturating `as u8` cast on an `f32`: truncate toward zero, clamp to
`[0, 255]`, `NaN` to `0`. -/
def f32_as_u8 : F32 → Nat
  | F32.nan => 0
  | F32.inf s => if s then 0 else 255
  | F32.fin q => if q ≤ 0 then 0 else if 255 ≤ q then 255 else ⌊q⌋.toNat

/-! ## Constants and the compute dispatch (src/gpu.rs) -/

def WIDTH : Nat := 1024
def HEIGHT : Nat := 1024
def POINT : Nat := 8
def FREQUENCY : Nat := 43000

/-- The workgroup-count triple the recorded compute pass passes to
`dispatch_workgroups` (src/gpu.rs: `pass.dispatch_workgroups(WIDTH, HEIGHT, 1)`). -/
def dispatch_workgroups_args : Nat × Nat × Nat := (WIDTH, HEIGHT, 1)

/-- Modelled from the spec: the compute shader (src/shaders/compute.wgsl,
embedded by `include_str!` and not present under src/) declares its local
workgroup size as 256×1×1 (\"the shader's local workgroup size is fixed at
256×1×1\"). -/
def shader_workgroup_size : Nat × Nat × Nat := (256, 1, 1)

/-- Modelled from the spec: the intended workgroup count, one workgroup per
`(grid_width/256, grid_height, 1)`. -/
def spec_dispatch_workgroups : Nat × Nat × Nat := (WIDTH / 256, HEIGHT, 1)

/-! ## Buffer descriptors (src/gpu.rs `compute` and `extract_buf`) -/

namespace BufferUsages

def MAP_READ : Nat := 2^0
def MAP_WRITE : Nat := 2^1
def COPY_SRC : Nat := 2^2
def COPY_DST : Nat := 2^3
def INDEX : Nat := 2^4
def VERTEX : Nat := 2^5
def UNIFORM : Nat := 2^6
def STORAGE : Nat := 2^7

end BufferUsages

structure BufferInitDescriptor where
  contents_len : Nat
  usage : Nat
deriving DecidableEq

/-- The Output Buffer as created in `compute`: initialized from
`vec![0; WIDTH as usize * HEIGHT as usize * 4]` with usage
`STORAGE | COPY_SRC`; `create_buffer_init` sizes the buffer to its contents. -/
def output_buf_desc : BufferInitDescriptor :=
  { contents_len := WIDTH * HEIGHT * 4
    usage := BufferUsages.STORAGE ||| BufferUsages.COPY_SRC }

/-- The staging buffer created in `extract_buf`, sized to the output buffer. -/
def stage_buf_desc : BufferInitDescriptor :=
  { contents_len := WIDTH * HEIGHT * 4
    usage := BufferUsages.MAP_READ ||| BufferUsages.COPY_DST }

/-! ## The validation error scope and the checked-operation executor
(macro `checked_device_op!` in src/gpu.rs; `Gpu::checked_device_op` in
src/app/gpu.rs is the same discipline with a fixed \"device error\" context,
its callers attaching the per-operation description with `.context(..)`). -/

/-- Device-side stack of validation error scopes; each open scope holds the
first validation error captured in it, if any. -/
structure DeviceState where
  scopes : List (Option String)
deriving DecidableEq

def push_error_scope (d : DeviceState) : DeviceState :=
  ⟨none :: d.scopes⟩

def pop_error_scope (d : DeviceState) : Option String × DeviceState :=
  match d.scopes with
  | [] => (none, ⟨[]⟩)
  | s :: rest => (s, ⟨rest⟩)

/-- A validation failure raised by a device call is captured by the innermost
open error scope; a scope keeps only the first error it captures. -/
def record_validation_error (e : String) (d : DeviceState) : DeviceState :=
  match d.scopes with
  | [] => d
  | some e0 :: rest => ⟨some e0 :: rest⟩
  | none :: rest => ⟨some e :: rest⟩

/-- A wrapped device operation: it produces `result` and raises the validation
errors `errs` (in order) against the device. -/
def run_op {α : Type} (result : α) (errs : List String) (d : DeviceState) : α × DeviceState :=
  (result, errs.foldl (fun s e => record_validation_error e s) d)

/-- `checked_device_op!(ctx, device, op)`: push a validation error scope, run
the operation, pop the scope; on a captured error, return
`Err(format!(concat!(ctx, \" error \", msg)))` instead of the result. -/
def checked_device_op {α : Type} (ctx : String) (op : DeviceState → α × DeviceState)
    (d : DeviceState) : Except String α × DeviceState :=
  let p := op (push_error_scope d)
  let q := pop_error_scope p.2
  match q.1 with
  | none => (Except.ok p.1, q.2)
  | some err => (Except.error (ctx ++ " error " ++ err), q.2)

/-! ## ComputeScene uniform layout (src/gpu.rs `ComputeScene`, `bytes_of`) -/

/-- `#[repr(C)]` field placement: round `off` up to the next multiple of `a`. -/
def alignTo (off a : Nat) : Nat := (off + a - 1) / a * a

/-- Offsets assigned by the `repr(C)` layout algorithm to a field list given as
(size, alignment) pairs, starting at `off`. -/
def reprC_offsets : Nat → List (Nat × Nat) → List Nat
  | _, [] => []
  | off, f :: rest => alignTo off f.2 :: reprC_offsets (alignTo off f.2 + f.1) rest

/-- Offset just past the last field laid out by `repr(C)`. -/
def reprC_end : Nat → List (Nat × Nat) → Nat
  | off, [] => off
  | off, f :: rest => reprC_end (alignTo off f.2 + f.1) rest

/-- Struct alignment: the maximum field alignment, raised (never lowered) by an
`align(n)` attribute. -/
def reprC_align (fields : List (Nat × Nat)) (attrAlign : Nat) : Nat :=
  fields.foldr (fun f a => max f.2 a) attrAlign

/-- Total `repr(C)` struct size: the end offset rounded up to the struct
alignment. -/
def reprC_size (fields : List (Nat × Nat)) (attrAlign : Nat) : Nat :=
  alignTo (reprC_end 0 fields) (reprC_align fields attrAlign)

/-- `ComputeScene { time: f32, freq: f32, count: u32, width: u32, height: u32 }`.
The two `f32` fields are carried as their 32-bit patterns, which is what
`bytemuck::bytes_of` serializes. -/
structure ComputeScene where
  time : Nat
  freq : Nat
  count : Nat
  width : Nat
  height : Nat
deriving DecidableEq

/-- The (size, alignment) list of `ComputeScene`'s fields: five 4-byte,
4-aligned scalars. -/
def sceneFields : List (Nat × Nat) := [(4, 4), (4, 4), (4, 4), (4, 4), (4, 4)]

/-- Little-endian byte encoding of a 32-bit scalar. -/
def u32le (x : Nat) : List Nat := [x % 2^8, x / 2^8 % 2^8, x / 2^16 % 2^8, x / 2^24 % 2^8]

def sceneFieldBytes (s : ComputeScene) : List (List Nat) :=
  [u32le s.time, u32le s.freq, u32le s.count, u32le s.width, u32le s.height]

/-- Overwrite `buf[off ..= off + bs.length)` with `bs`. -/
def writeBytesAt (buf : List Nat) (off : Nat) (bs : List Nat) : List Nat :=
  buf.take off ++ bs ++ buf.drop (off + bs.length)

/-- `bytemuck::bytes_of(&scene)`: the struct's memory image — each field's
little-endian bytes written at its `repr(C, align(1))` offset into a buffer of
the struct's size. -/
def bytes_of (s : ComputeScene) : List Nat :=
  ((reprC_offsets 0 sceneFields).zip (sceneFieldBytes s)).foldl
    (fun b ob => writeBytesAt b ob.1 ob.2) (List.replicate (reprC_size sceneFields 1) 0)

/-- The scene value uploaded by `compute`: time 0.0 (pattern 0), freq
`FREQUENCY as f32`, count `POINT`, width `WIDTH`, height `HEIGHT`. -/
def compute_scene : ComputeScene :=
  { time := 0, freq := 1193801728, count := POINT, width := WIDTH, height := HEIGHT }

/-! ## Adapter request and the headless `run` sequence (src/gpu.rs `run`) -/

inductive PowerPreference where
  | LowPower : PowerPreference
  | HighPerformance : PowerPreference
deriving DecidableEq

/-- `PowerPreference::default()` in the wgpu version in use is `LowPower`. -/
def PowerPreference.default : PowerPreference := PowerPreference.LowPower

structure RequestAdapterOptions where
  power_preference : PowerPreference
  force_fallback_adapter : Bool
  compatible_surface : Option Unit
deriving DecidableEq

/-- The options `run` passes to `request_adapter`. -/
def adapter_options : RequestAdapterOptions :=
  { power_preference := PowerPreference.default
    force_fallback_adapter := false
    compatible_surface := none }

/-- The error taxonomy of the startup sequence, as distinguished by the
`anyhow` context/message attached at each failure site in `run`. -/
inductive RunError where
  | noAdapterFound : RunError
  | deviceRequestFailed : String → RunError
  | computeFailed : String → RunError
  | extractFailed : String → RunError
  | saveFailed : String → RunError
deriving DecidableEq

/-- The environment `run` executes against: the responses of the external GPU
stack to each request, in sequence. -/
structure GpuEnv where
  adapter : Option Unit
  device : Except String Unit
  computeRes : Except String Unit
  extractRes : Except String Unit
  saveRes : Except String Unit

/-- `run`: request an adapter (`.ok_or("no adapter found")?`), then a device
(`.context("request gpu device")?`), then compute, extract and save; the first
failure aborts the remaining steps. -/
def run (env : GpuEnv) : Except RunError Unit :=
  match env.adapter with
  | none => Except.error RunError.noAdapterFound
  | some _ =>
    match env.device with
    | Except.error m => Except.error (RunError.deviceRequestFailed m)
    | Except.ok _ =>
      match env.computeRes with
      | Except.error m => Except.error (RunError.computeFailed m)
      | Except.ok _ =>
        match env.extractRes with
        | Except.error m => Except.error (RunError.extractFailed m)
        | Except.ok _ =>
          match env.saveRes with
          | Except.error m => Except.error (RunError.saveFailed m)
          | Except.ok _ => Except.ok ()

/-! ## Readback decode (src/gpu.rs `extract_buf`) -/

/-- `cast_slice::<_, f32>`: reinterpret the mapped staging bytes, in
little-endian 4-byte groups, as `f32`s. -/
def bytesToF32s : List Nat → List F32
  | b0 :: b1 :: b2 :: b3 :: rest =>
    bitsToF32 (b0 + 2^8 * b1 + 2^16 * b2 + 2^24 * b3) :: bytesToF32s rest
  | _ => []

/-- The per-sample decode `|g| (255.0 * g) as u8` applied to each float. -/
def sampleOfF32 (g : F32) : Nat := f32_as_u8 (f32mul (F32.fin 255) g)

/-- The decode stage of `extract_buf`: bytes, to `f32`s, to 8-bit samples. -/
def extract_decode (data : List Nat) : List Nat := (bytesToF32s data).map sampleOfF32

/-- `GrayImage::from_vec(w, h, data)`: succeeds exactly when the sample count
matches `w * h`. -/
def GrayImage_from_vec (w h : Nat) (data : List Nat) : Option (List Nat) :=
  if data.length = w * h then some data else none

/-! ## UI event loop and presentation (src/app/ui.rs `Ui::run`,
src/app/gpu.rs `Gpu::draw`, `Gpu::ignite`) -/

inductive UiMessage where
  | ComputeComplete : Except String Unit → UiMessage
  | ProgressUpdate : UiMessage

inductive WinEvent where
  | CloseRequested : WinEvent
  | OtherWindow : WinEvent
deriving DecidableEq

/-- One iteration's input to the event-loop closure. A redraw request carries
the environment it runs against: whether the weak GPU reference upgrades, and
the surface's response to `get_current_texture`. -/
inductive UiEvent where
  | WindowEvent : WinEvent → UiEvent
  | MainEventsCleared : UiEvent
  | RedrawRequested : Bool → Except String Unit → UiEvent
  | UserEvent : UiMessage → UiEvent
  | Other : UiEvent

inductive ControlFlow where
  | Wait : ControlFlow
  | ExitLoop : ControlFlow
deriving DecidableEq

/-- `Gpu::draw`: on `get_current_texture` failure, log and return without
presenting; on success, present. Returns whether a frame was presented. -/
def Gpu_draw : Except String Unit → Bool
  | Except.ok _ => true
  | Except.error _ => false

structure StepEffects where
  flow : ControlFlow
  redrawRequested : Bool
  presented : Bool
deriving DecidableEq

/-- One iteration of `Ui::run`'s event-loop closure: `flow.set_wait()` first,
then the event dispatch (close requests and failed compute completions call
`flow.set_exit()`; cleared main events and progress/success completions
request a redraw; a redraw request draws when the weak GPU reference is live). -/
def uiStep : UiEvent → StepEffects
  | UiEvent.WindowEvent WinEvent.CloseRequested =>
    { flow := ControlFlow.ExitLoop, redrawRequested := false, presented := false }
  | UiEvent.WindowEvent WinEvent.OtherWindow =>
    { flow := ControlFlow.Wait, redrawRequested := false, presented := false }
  | UiEvent.MainEventsCleared =>
    { flow := ControlFlow.Wait, redrawRequested := true, presented := false }
  | UiEvent.RedrawRequested gpuLive acquire =>
    { flow := ControlFlow.Wait, redrawRequested := false
      presented := if gpuLive then Gpu_draw acquire else false }
  | UiEvent.UserEvent UiMessage.ProgressUpdate =>
    { flow := ControlFlow.Wait, redrawRequested := true, presented := false }
  | UiEvent.UserEvent (UiMessage.ComputeComplete (Except.ok _)) =>
    { flow := ControlFlow.Wait, redrawRequested := true, presented := false }
  | UiEvent.UserEvent (UiMessage.ComputeComplete (Except.error _)) =>
    { flow := ControlFlow.ExitLoop, redrawRequested := false, presented := false }
  | UiEvent.Other =>
    { flow := ControlFlow.Wait, redrawRequested := false, presented := false }

/-- `Gpu::ignite`: run the compute task to its result and deliver that result
to the UI event queue as a single `ComputeComplete` message. -/
def Gpu_ignite (computeResult : Except String Unit) : List UiMessage :=
  [UiMessage.ComputeComplete computeResult]

/-! ## Lazy GPU owner (src/app/ui.rs `Ui::get_gpu`)

The `RwLock<Weak<Gpu>>` cell is modelled by `GpuSlot`: `weak` upgrades to the
held instance id while a strong reference is live; `constructions` counts
`Gpu::new` calls. A `get_gpu` call is a two-phase program: the read-locked
upgrade attempt, then (only if that failed) the write-locked re-check and
construction, each phase atomic under its lock. -/

structure GpuSlot where
  weak : Option Nat
  nextId : Nat
  constructions : Nat
deriving DecidableEq

inductive GetGpuPhase where
  | start : GetGpuPhase
  | needWrite : GetGpuPhase
  | done : Nat → GetGpuPhase
deriving DecidableEq

/-- One atomic phase of `Ui::get_gpu`: from `start`, the read-locked fast path
returns the existing instance if the weak upgrades, else proceeds to the write
lock; from `needWrite`, the write-locked section re-checks the weak and only
constructs a new `Gpu` if the re-check still fails. -/
def get_gpu_step (s : GpuSlot) : GetGpuPhase → GpuSlot × GetGpuPhase
  | GetGpuPhase.start =>
    match s.weak with
    | some g => (s, GetGpuPhase.done g)
    | none => (s, GetGpuPhase.needWrite)
  | GetGpuPhase.needWrite =>
    match s.weak with
    | some g => (s, GetGpuPhase.done g)
    | none =>
      ({ weak := some s.nextId, nextId := s.nextId + 1, constructions := s.constructions + 1 },
        GetGpuPhase.done s.nextId)
  | GetGpuPhase.done g => (s, GetGpuPhase.done g)

/-- Two concurrent `get_gpu` calls `a` and `b` over the shared slot. -/
structure RaceState where
  slot : GpuSlot
  a : GetGpuPhase
  b : GetGpuPhase
deriving DecidableEq

/-- Run one atomic phase of thread `a` (`pickA = true`) or thread `b`. -/
def raceStep (st : RaceState) (pickA : Bool) : RaceState :=
  if pickA then
    { slot := (get_gpu_step st.slot st.a).1, a := (get_gpu_step st.slot st.a).2, b := st.b }
  else
    { slot := (get_gpu_step st.slot st.b).1, a := st.a, b := (get_gpu_step st.slot st.b).2 }

/-- Run the race under an arbitrary interleaving schedule. -/
def raceRun (st : RaceState) : List Bool → RaceState
  | [] => st
  | c :: cs => raceRun (raceStep st c) cs

/-- Both calls begin before the GPU owner exists. -/
def raceInit : RaceState :=
  { slot := { weak := none, nextId := 0, constructions := 0 }
    a := GetGpuPhase.start, b := GetGpuPhase.start }

/-! ## Helper lemmas -/

/-- Folding a list of validation errors into a device whose innermost scope
holds `s` leaves the outer scopes untouched and stores `s` if present, else
the first incoming error. -/
theorem record_foldl (errs : List String) (s : Option String) (rest : List (Option String)) :
    errs.foldl (fun st e => record_validation_error e st) ⟨s :: rest⟩ =
      ⟨(match s with | some e0 => some e0 | none => errs.head?) :: rest⟩ := by
  induction errs generalizing s with
  | nil => cases s <;> rfl
  | cons e es ih =>
    rw [List.foldl_cons]
    cases s with
    | some e0 =>
      rw [show record_validation_error e ⟨some e0 :: rest⟩ = ⟨some e0 :: rest⟩ from rfl,
        ih (some e0)]
    | none =>
      rw [show record_validation_error e ⟨none :: rest⟩ = ⟨some e :: rest⟩ from rfl,
        ih (some e)]
      rfl

/-- Closed form of the checked executor on an operation that raises the error
list `errs`: the scope stack is restored, and the result is the raw result
exactly when no error was captured. -/
theorem checked_device_op_run_op {α : Type} (ctx : String) (r : α) (errs : List String)
    (d : DeviceState) :
    checked_device_op ctx (run_op r errs) d =
      ((match errs.head? with
        | none => Except.ok r
        | some e => Except.error (ctx ++ " error " ++ e)), d) := by
  unfold checked_device_op run_op push_error_scope
  rw [record_foldl errs none d.scopes]
  cases errs.head? <;> rfl

/-! ## Claim theorems -/

/-- C1: the recorded compute pass passes `(WIDTH, HEIGHT, 1) = (1024, 1024, 1)`
workgroups to `dispatch_workgroups`, not the `(grid_width/256, grid_height, 1)
= (4, 1024, 1)` that the specified 256×1×1 shader workgroup size calls for. -/
theorem C1_dispatch_workgroup_count :
    dispatch_workgroups_args = (1024, 1024, 1) ∧
    spec_dispatch_workgroups = (4, 1024, 1) ∧
    shader_workgroup_size = (256, 1, 1) ∧
    dispatch_workgroups_args ≠ spec_dispatch_workgroups := by
  refine ⟨rfl, rfl, rfl, ?_⟩
  decide

/-- C2: the checked-operation executor brackets the wrapped operation in a
validation error scope push/pop, restoring the scope stack; if the scope
captured an error it returns an error carrying the operation's description and
the error message and never the raw result, else it returns the operation's
result unchanged. -/
theorem C2_checked_operation {α : Type} (ctx : String) (r : α) (errs : List String)
    (d : DeviceState) :
    (checked_device_op ctx (run_op r errs) d).2 = d ∧
    (errs = [] → (checked_device_op ctx (run_op r errs) d).1 = Except.ok r) ∧
    (∀ e, errs.head? = some e →
      (checked_device_op ctx (run_op r errs) d).1 = Except.error (ctx ++ " error " ++ e) ∧
      ∀ x : α, (checked_device_op ctx (run_op r errs) d).1 ≠ Except.ok x) := by
  refine ⟨?_, ?_, ?_⟩
  · rw [checked_device_op_run_op]
  · intro h
    subst h
    rw [checked_device_op_run_op]
    rfl
  · intro e he
    refine ⟨?_, ?_⟩
    · rw [checked_device_op_run_op, he]
    · intro x
      rw [checked_device_op_run_op, he]
      simp

/-- C2 witness: a bind-group creation that raises a mismatched-buffer-size
validation error is reported as the structured error, never as the raw result. -/
theorem C2_checked_operation_witness :
    (checked_device_op "create bind group" (run_op (0 : Nat) ["mismatched buffer size"])
        ⟨[]⟩).1 = Except.error ("create bind group" ++ " error " ++ "mismatched buffer size") ∧
    ∀ x : Nat, (checked_device_op "create bind group" (run_op (0 : Nat) ["mismatched buffer size"])
        ⟨[]⟩).1 ≠ Except.ok x :=
  (C2_checked_operation "create bind group" (0 : Nat) ["mismatched buffer size"] ⟨[]⟩).2.2
    "mismatched buffer size" rfl

/-- C4: for the program's grid (1024×1024, both multiples of 256), the Output
Buffer is created over exactly `WIDTH * HEIGHT * 4` bytes of contents, with
both the STORAGE and the COPY_SRC usage bits set. -/
theorem C4_output_buffer_size_and_usage :
    output_buf_desc.contents_len = 1024 * 1024 * 4 ∧
    output_buf_desc.contents_len = WIDTH * HEIGHT * 4 ∧
    WIDTH % 256 = 0 ∧ HEIGHT % 256 = 0 ∧
    output_buf_desc.usage &&& BufferUsages.STORAGE ≠ 0 ∧
    output_buf_desc.usage &&& BufferUsages.COPY_SRC ≠ 0 := by
  decide

/-- C5: when acquiring the next presentable frame fails, `Gpu::draw` returns
without presenting, and the event-loop iteration leaves the control flow at
`Wait` — the failure is never propagated as fatal. -/
theorem C5_surface_acquire_failure_skips_frame (e : String) (live : Bool) :
    Gpu_draw (Except.error e) = false ∧
    (uiStep (UiEvent.RedrawRequested live (Except.error e))).presented = false ∧
    (uiStep (UiEvent.RedrawRequested live (Except.error e))).flow = ControlFlow.Wait := by
  refine ⟨rfl, ?_, rfl⟩
  cases live <;> rfl

/-- C6: compute completion posts exactly one `ComputeComplete` message carrying
the result; the UI exits its loop on a failure result and requests a redraw
(without exiting) on a success result. -/
theorem C6_compute_completion_message (r : Except String Unit) (e : String) :
    Gpu_ignite r = [UiMessage.ComputeComplete r] ∧
    (Gpu_ignite r).length = 1 ∧
    uiStep (UiEvent.UserEvent (UiMessage.ComputeComplete (Except.error e))) =
      { flow := ControlFlow.ExitLoop, redrawRequested := false, presented := false } ∧
    uiStep (UiEvent.UserEvent (UiMessage.ComputeComplete (Except.ok ()))) =
      { flow := ControlFlow.Wait, redrawRequested := true, presented := false } :=
  ⟨rfl, rfl, rfl, rfl⟩

/-- C8: the adapter is requested with default power preference, no forced
software fallback and no compatible surface, and `run` fails with the
no-adapter-found error exactly when the adapter request yields no adapter. -/
theorem C8_no_adapter_found (env : GpuEnv) :
    adapter_options.power_preference = PowerPreference.default ∧
    adapter_options.force_fallback_adapter = false ∧
    adapter_options.compatible_surface = none ∧
    (run env = Except.error RunError.noAdapterFound ↔ env.adapter = none) := by
  refine ⟨rfl, rfl, rfl, ?_⟩
  obtain ⟨a, dv, c, x, s⟩ := env
  cases a <;> cases dv <;> cases c <;> cases x <;> cases s <;> simp [run]

/-- C9: the `repr(C, align(1))` layout of `ComputeScene` places its five 4-byte
fields at offsets 0, 4, 8, 12, 16 in a 20-byte struct with no padding, so its
serialization is exactly the little-endian encodings of time, freq, count,
width, height in that order, 20 bytes in all. -/
theorem C9_scene_byte_layout :
    reprC_offsets 0 sceneFields = [0, 4, 8, 12, 16] ∧
    reprC_size sceneFields 1 = 20 ∧
    (∀ s : ComputeScene, bytes_of s =
      u32le s.time ++ u32le s.freq ++ u32le s.count ++ u32le s.width ++ u32le s.height) ∧
    (∀ s : ComputeScene, (bytes_of s).length = 20) := by
  refine ⟨by decide, by decide, fun s => rfl, fun s => ?_⟩
  show (bytes_of s).length = 20
  rw [show bytes_of s =
    u32le s.time ++ u32le s.freq ++ u32le s.count ++ u32le s.width ++ u32le s.height from rfl]
  simp [u32le]

/-- A `get_gpu` call that has not yet returned. -/
def notDone : GetGpuPhase → Prop
  | GetGpuPhase.done _ => False
  | GetGpuPhase.start => True
  | GetGpuPhase.needWrite => True

/-- Reachability invariant of the two-call race from `raceInit`: while the weak
reference is dead nothing has been constructed and neither call has returned;
once it is live, exactly one construction has happened and every returned call
returned that same instance. -/
def raceInv (st : RaceState) : Prop :=
  (st.slot.weak = none → st.slot.constructions = 0 ∧ st.slot.nextId = 0 ∧
    notDone st.a ∧ notDone st.b) ∧
  (∀ g, st.slot.weak = some g → g = 0 ∧ st.slot.constructions = 1 ∧ st.slot.nextId = 1 ∧
    (∀ h, st.a = GetGpuPhase.done h → h = 0) ∧ (∀ h, st.b = GetGpuPhase.done h → h = 0))

theorem raceInv_step (st : RaceState) (c : Bool) (h : raceInv st) : raceInv (raceStep st c) := by
  obtain ⟨⟨w, n, k⟩, ta, tb⟩ := st
  obtain ⟨h1, h2⟩ := h
  cases w with
  | none =>
    obtain ⟨hk, hn, hta, htb⟩ := h1 rfl
    subst hk; subst hn
    cases c with
    | true =>
      cases ta with
      | done g => exact absurd hta (by simp [notDone])
      | start =>
        exact ⟨fun _ => ⟨rfl, rfl, trivial, htb⟩, fun g hg => by simp [raceStep, get_gpu_step] at hg⟩
      | needWrite =>
        refine ⟨fun hw => by simp [raceStep, get_gpu_step] at hw, fun g hg => ?_⟩
        simp only [raceStep, get_gpu_step] at hg ⊢
        obtain rfl : g = 0 := by simpa using hg.symm
        exact ⟨rfl, rfl, rfl, fun h hh => by simpa using hh.symm,
          fun h hh => by cases tb <;> simp_all [notDone]⟩
    | false =>
      cases tb with
      | done g => exact absurd htb (by simp [notDone])
      | start =>
        exact ⟨fun _ => ⟨rfl, rfl, hta, trivial⟩, fun g hg => by simp [raceStep, get_gpu_step] at hg⟩
      | needWrite =>
        refine ⟨fun hw => by simp [raceStep, get_gpu_step] at hw, fun g hg => ?_⟩
        simp only [raceStep, get_gpu_step] at hg ⊢
        obtain rfl : g = 0 := by simpa using hg.symm
        exact ⟨rfl, rfl, rfl, fun h hh => by cases ta <;> simp_all [notDone],
          fun h hh => by simpa using hh.symm⟩
  | some g0 =>
    obtain ⟨hg0, hk, hn, hda, hdb⟩ := h2 g0 rfl
    subst hg0; subst hk; subst hn
    cases c with
    | true =>
      cases ta with
      | done g =>
        refine ⟨fun hw => by simp [raceStep, get_gpu_step] at hw, fun g1 hg1 => ?_⟩
        simp only [raceStep, get_gpu_step] at hg1 ⊢
        obtain rfl : g1 = 0 := by simpa using hg1.symm
        exact ⟨rfl, rfl, rfl, fun h hh => by
          have := hda g rfl
          subst this
          simpa using hh.symm, hdb⟩
      | start =>
        refine ⟨fun hw => by simp [raceStep, get_gpu_step] at hw, fun g1 hg1 => ?_⟩
        simp only [raceStep, get_gpu_step] at hg1 ⊢
        obtain rfl : g1 = 0 := by simpa using hg1.symm
        exact ⟨rfl, rfl, rfl, fun h hh => by simpa using hh.symm, hdb⟩
      | needWrite =>
        refine ⟨fun hw => by simp [raceStep, get_gpu_step] at hw, fun g1 hg1 => ?_⟩
        simp only [raceStep, get_gpu_step] at hg1 ⊢
        obtain rfl : g1 = 0 := by simpa using hg1.symm
        exact ⟨rfl, rfl, rfl, fun h hh => by simpa using hh.symm, hdb⟩
    | false =>
      cases tb with
      | done g =>
        refine ⟨fun hw => by simp [raceStep, get_gpu_step] at hw, fun g1 hg1 => ?_⟩
        simp only [raceStep, get_gpu_step] at hg1 ⊢
        obtain rfl : g1 = 0 := by simpa using hg1.symm
        exact ⟨rfl, rfl, rfl, hda, fun h hh => by
          have := hdb g rfl
          subst this
          simpa using hh.symm⟩
      | start =>
        refine ⟨fun hw => by simp [raceStep, get_gpu_step] at hw, fun g1 hg1 => ?_⟩
        simp only [raceStep, get_gpu_step] at hg1 ⊢
        obtain rfl : g1 = 0 := by simpa using hg1.symm
        exact ⟨rfl, rfl, rfl, hda, fun h hh => by simpa using hh.symm⟩
      | needWrite =>
        refine ⟨fun hw => by simp [raceStep, get_gpu_step] at hw, fun g1 hg1 => ?_⟩
        simp only [raceStep, get_gpu_step] at hg1 ⊢
        obtain rfl : g1 = 0 := by simpa using hg1.symm
        exact ⟨rfl, rfl, rfl, hda, fun h hh => by simpa using hh.symm⟩

theorem raceInv_run (sched : List Bool) (st : RaceState) (h : raceInv st) :
    raceInv (raceRun st sched) := by
  induction sched generalizing st with
  | nil => exact h
  | cons c cs ih => exact ih (raceStep st c) (raceInv_step st c h)

/-- C7: the lazy accessor upgrades under the read lock first and, failing that,
re-checks under the write lock before constructing; two calls racing from the
uninitialized slot (the strong reference staying live) perform exactly one
construction and return the same instance, under every interleaving. -/
theorem C7_lazy_gpu_single_construction (sched : List Bool) (ga gb : Nat)
    (ha : (raceRun raceInit sched).a = GetGpuPhase.done ga)
    (hb : (raceRun raceInit sched).b = GetGpuPhase.done gb) :
    ga = gb ∧ (raceRun raceInit sched).slot.constructions = 1 ∧
    (∀ s : GpuSlot, ∀ g, s.weak = some g →
      get_gpu_step s GetGpuPhase.start = (s, GetGpuPhase.done g)) := by
  have inv := raceInv_run sched raceInit
    ⟨fun _ => ⟨rfl, rfl, trivial, trivial⟩, fun g hg => by simp [raceInit] at hg⟩
  cases hw : (raceRun raceInit sched).slot.weak with
  | none =>
    obtain ⟨_, _, hta, _⟩ := inv.1 hw
    rw [ha] at hta
    exact absurd hta (by simp [notDone])
  | some g =>
    obtain ⟨hg, hk, _, hda, hdb⟩ := inv.2 g hw
    have h1 := hda ga ha
    have h2 := hdb gb hb
    subst h1; subst h2
    exact ⟨rfl, hk, fun s g1 hg1 => by simp [get_gpu_step, hg1]⟩

/-- C7 witness: the schedule where call `a` finds the slot dead, constructs
under the write lock, and call `b` then takes the fast path: one construction,
both calls return instance 0. -/
theorem C7_lazy_gpu_witness :
    (0 : Nat) = 0 ∧ (raceRun raceInit [true, true, false]).slot.constructions = 1 ∧
    (∀ s : GpuSlot, ∀ g, s.weak = some g →
      get_gpu_step s GetGpuPhase.start = (s, GetGpuPhase.done g)) :=
  C7_lazy_gpu_single_construction [true, true, false] 0 0 (by decide) (by decide)

/-! ## Concrete f32 evaluations for the decode round-trip -/

theorem int_log_255 : Int.log 2 (255:ℚ) = 7 := by
  have h : Nat.log 2 255 = 7 := Nat.log_eq_of_pow_le_of_lt_pow (by norm_num) (by norm_num)
  rw [Int.log_ofNat, h]
  rfl

theorem bitsToF32_one_bits : bitsToF32 1065353216 = F32.fin 1 := by
  unfold bitsToF32
  norm_num

theorem bitsToF32_zero_bits : bitsToF32 0 = F32.fin 0 := by
  unfold bitsToF32
  norm_num

theorem f32grid_255 : f32grid (255:ℚ) = -16 := by
  unfold f32grid
  rw [show |(255:ℚ)| = 255 from abs_of_pos (by norm_num), int_log_255]
  rfl

theorem roundF32_255 : roundF32 (255:ℚ) = F32.fin 255 := by
  have hm : f32mant (255:ℚ) = 16711680 := by
    unfold f32mant
    rw [f32grid_255, show |(255:ℚ)| = 255 from abs_of_pos (by norm_num),
      show (255:ℚ) / (2:ℚ)^(-16:ℤ) = 16711680 by norm_num]
    unfold rneInt
    norm_num
  have hv : f32val (255:ℚ) = 255 := by
    unfold f32val
    rw [hm, f32grid_255]
    norm_num
  unfold roundF32
  rw [hv]
  norm_num

theorem sampleOfF32_one : sampleOfF32 (F32.fin 1) = 255 := by
  show f32_as_u8 (f32mul (F32.fin 255) (F32.fin 1)) = 255
  rw [show f32mul (F32.fin 255) (F32.fin 1) = roundF32 ((255:ℚ) * 1) from rfl,
    show (255:ℚ) * 1 = 255 by norm_num, roundF32_255]
  unfold f32_as_u8
  norm_num

theorem sampleOfF32_zero : sampleOfF32 (F32.fin 0) = 0 := by
  show f32_as_u8 (f32mul (F32.fin 255) (F32.fin 0)) = 0
  rw [show f32mul (F32.fin 255) (F32.fin 0) = roundF32 ((255:ℚ) * 0) from rfl,
    show (255:ℚ) * 0 = 0 by norm_num, show roundF32 (0:ℚ) = F32.fin 0 from rfl]
  unfold f32_as_u8
  norm_num

/-- Decoding consumes the staging bytes four at a time, little-endian. -/
theorem extract_decode_cons (b0 b1 b2 b3 : Nat) (rest : List Nat) :
    extract_decode (b0 :: b1 :: b2 :: b3 :: rest) =
      sampleOfF32 (bitsToF32 (b0 + 2^8 * b1 + 2^16 * b2 + 2^24 * b3)) :: extract_decode rest :=
  rfl

/-- The little-endian bytes of `1.0f32` as they sit in the staging buffer. -/
def one_f32_bytes : List Nat := [0, 0, 128, 63]

/-- The little-endian bytes of `0.0f32`. -/
def zero_f32_bytes : List Nat := [0, 0, 0, 0]

theorem extract_decode_all_one (n : Nat) :
    extract_decode (List.flatten (List.replicate n one_f32_bytes)) = List.replicate n 255 := by
  induction n with
  | zero => rfl
  | succ k ih =>
    have hj : List.flatten (List.replicate (k + 1) one_f32_bytes) =
        0 :: 0 :: 128 :: 63 :: List.flatten (List.replicate k one_f32_bytes) := by
      rw [List.replicate_succ, List.flatten_cons]
      rfl
    rw [hj, extract_decode_cons,
      show (0 + 2^8 * 0 + 2^16 * 128 + 2^24 * 63 : Nat) = 1065353216 by norm_num,
      bitsToF32_one_bits, sampleOfF32_one, ih, List.replicate_succ]

theorem extract_decode_all_zero (n : Nat) :
    extract_decode (List.flatten (List.replicate n zero_f32_bytes)) = List.replicate n 0 := by
  induction n with
  | zero => rfl
  | succ k ih =>
    have hj : List.flatten (List.replicate (k + 1) zero_f32_bytes) =
        0 :: 0 :: 0 :: 0 :: List.flatten (List.replicate k zero_f32_bytes) := by
      rw [List.replicate_succ, List.flatten_cons]
      rfl
    rw [hj, extract_decode_cons,
      show (0 + 2^8 * 0 + 2^16 * 0 + 2^24 * 0 : Nat) = 0 by norm_num,
      bitsToF32_zero_bits, sampleOfF32_zero, ih, List.replicate_succ]

/-- C3: each 4-byte group is decoded as a little-endian f32, scaled by 255 and
truncated to an 8-bit sample; a staging buffer of all-1.0 floats decodes to an
all-255 image and all-0.0 floats to an all-0 image, at the grid size as well. -/
theorem C3_decode_round_trip (n : Nat) :
    extract_decode (List.flatten (List.replicate n one_f32_bytes)) = List.replicate n 255 ∧
    extract_decode (List.flatten (List.replicate n zero_f32_bytes)) = List.replicate n 0 ∧
    GrayImage_from_vec WIDTH HEIGHT
        (extract_decode (List.flatten (List.replicate (WIDTH * HEIGHT) one_f32_bytes))) =
      some (List.replicate (WIDTH * HEIGHT) 255) ∧
    GrayImage_from_vec WIDTH HEIGHT
        (extract_decode (List.flatten (List.replicate (WIDTH * HEIGHT) zero_f32_bytes))) =
      some (List.replicate (WIDTH * HEIGHT) 0) := by
  refine ⟨extract_decode_all_one n, extract_decode_all_zero n, ?_, ?_⟩
  · rw [extract_decode_all_one (WIDTH * HEIGHT)]
    simp [GrayImage_from_vec]
  · rw [extract_decode_all_zero (WIDTH * HEIGHT)]
    simp [GrayImage_from_vec]

/-! ## Saturation of the per-sample decode -/

theorem rneInt_ge_floor (r : ℚ) : ⌊r⌋ ≤ rneInt r := by
  unfold rneInt
  split
  · exact le_refl _
  split
  · linarith
  split
  · exact le_refl _
  · linarith

theorem le_rneInt (n : ℤ) (r : ℚ) (h : (n:ℚ) ≤ r) : n ≤ rneInt r :=
  le_trans (Int.le_floor.mpr h) (rneInt_ge_floor r)

theorem rneInt_nonneg (r : ℚ) (h : 0 ≤ r) : 0 ≤ rneInt r :=
  le_trans (Int.floor_nonneg.mpr h) (rneInt_ge_floor r)

theorem lt_rneInt (r : ℚ) : r - 1 < (rneInt r : ℚ) :=
  lt_of_lt_of_le (Int.sub_one_lt_floor r) (by exact_mod_cast rneInt_ge_floor r)

theorem f32grid_of_ge_255 (x : ℚ) (hx : 255 ≤ x) :
    f32grid x = Int.log 2 x - 23 ∧ 7 ≤ Int.log 2 x := by
  have hpos : (0:ℚ) < x := lt_of_lt_of_le (by norm_num) hx
  have hlog : 7 ≤ Int.log 2 x := by
    rw [← int_log_255]
    exact Int.log_mono_right (by norm_num) hx
  refine ⟨?_, hlog⟩
  unfold f32grid
  rw [abs_of_pos hpos]
  exact max_eq_left (by omega)

theorem f32val_ge_255 (x : ℚ) (hx : 255 ≤ x) : 255 ≤ f32val x := by
  obtain ⟨hg, hlog⟩ := f32grid_of_ge_255 x hx
  have hpos : (0:ℚ) < x := lt_of_lt_of_le (by norm_num) hx
  have habs : |x| = x := abs_of_pos hpos
  unfold f32val f32mant
  rw [hg, habs]
  rcases le_or_lt (Int.log 2 x) 23 with h23 | h23
  · -- the integer 255 is itself on the grid of spacing 2^(log - 23)
    have hek : Int.log 2 x - 23 = -((23 - Int.log 2 x).toNat : ℤ) := by omega
    set k : ℕ := (23 - Int.log 2 x).toNat with hk
    rw [hek]
    have hzp : (2:ℚ)^(-(k:ℤ)) = ((2:ℚ)^(k:ℕ))⁻¹ := by
      rw [zpow_neg, zpow_natCast]
    have h2k : (0:ℚ) < (2:ℚ)^(k:ℕ) := by positivity
    have hmant : ((255 * 2^k : ℤ) : ℚ) ≤ x / (2:ℚ)^(-(k:ℤ)) := by
      rw [hzp, div_eq_mul_inv, inv_inv]
      push_cast
      exact mul_le_mul_of_nonneg_right hx h2k.le
    have hm := le_rneInt (255 * 2^k) _ hmant
    have hm' : ((255 * 2^k : ℤ) : ℚ) ≤ (rneInt (x / (2:ℚ)^(-(k:ℤ))) : ℚ) := by
      exact_mod_cast hm
    calc (255:ℚ) = ((255 * 2^k : ℤ) : ℚ) * (2:ℚ)^(-(k:ℤ)) := by
          rw [hzp]
          push_cast
          field_simp
      _ ≤ (rneInt (x / (2:ℚ)^(-(k:ℤ))) : ℚ) * (2:ℚ)^(-(k:ℤ)) :=
          mul_le_mul_of_nonneg_right hm' (zpow_pos (by norm_num) _).le
  · -- log ≥ 24: the grid point below x already clears 255 by a wide margin
    set e : ℤ := Int.log 2 x with he
    have hxe : (2:ℚ)^e ≤ x := by
      have := Int.zpow_log_le_self (b := 2) (by norm_num) hpos
      rw [← he] at this
      exact_mod_cast this
    have h2g : (0:ℚ) < (2:ℚ)^(e - 23) := zpow_pos (by norm_num) _
    have hsplit : (2:ℚ)^e = (2:ℚ)^(e - 23) * (2:ℚ)^(23:ℤ) := by
      rw [← zpow_add₀ (by norm_num : (2:ℚ) ≠ 0)]
      congr 1
      omega
    have h2ge2 : (2:ℚ) ≤ (2:ℚ)^(e - 23) := by
      calc (2:ℚ) = (2:ℚ)^(1:ℤ) := (zpow_one 2).symm
        _ ≤ (2:ℚ)^(e - 23) := zpow_le_zpow_right₀ (by norm_num) (by omega)
    have hmr := lt_rneInt (x / (2:ℚ)^(e - 23))
    have hval : x - (2:ℚ)^(e - 23) < (rneInt (x / (2:ℚ)^(e - 23)) : ℚ) * (2:ℚ)^(e - 23) := by
      have := mul_lt_mul_of_pos_right hmr h2g
      calc x - (2:ℚ)^(e - 23) = (x / (2:ℚ)^(e - 23) - 1) * (2:ℚ)^(e - 23) := by
            field_simp
        _ < _ := this
    have h23v : (2:ℚ)^(23:ℤ) = 8388608 := by norm_num
    have hx2 : (2:ℚ)^(e - 23) * 8388608 ≤ x := by
      rw [← h23v, ← hsplit]
      exact hxe
    have : (255:ℚ) ≤ x - (2:ℚ)^(e - 23) := by linarith
    linarith

theorem roundF32_ge_255 (x : ℚ) (hx : 255 ≤ x) :
    roundF32 x = F32.inf false ∨ ∃ v, roundF32 x = F32.fin v ∧ 255 ≤ v := by
  have hpos : (0:ℚ) < x := lt_of_lt_of_le (by norm_num) hx
  have hv := f32val_ge_255 x hx
  unfold roundF32
  rw [if_neg (ne_of_gt hpos)]
  by_cases hov : (2:ℚ)^(128:ℤ) ≤ f32val x
  · rw [if_pos hov, decide_eq_false (not_lt.mpr hpos.le)]
    exact Or.inl rfl
  · rw [if_neg hov, if_neg (not_lt.mpr hpos.le)]
    exact Or.inr ⟨f32val x, rfl, hv⟩

theorem roundF32_of_neg (x : ℚ) (hx : x < 0) :
    roundF32 x = F32.inf true ∨ ∃ v, roundF32 x = F32.fin v ∧ v ≤ 0 := by
  have hm : 0 ≤ f32mant x :=
    rneInt_nonneg _ (div_nonneg (abs_nonneg x) (zpow_pos (by norm_num) _).le)
  have hv : 0 ≤ f32val x :=
    mul_nonneg (by exact_mod_cast hm) (zpow_pos (by norm_num : (0:ℚ) < 2) (f32grid x)).le
  unfold roundF32
  rw [if_neg (ne_of_lt hx)]
  by_cases hov : (2:ℚ)^(128:ℤ) ≤ f32val x
  · rw [if_pos hov, decide_eq_true hx]
    exact Or.inl rfl
  · rw [if_neg hov, if_pos hx]
    exact Or.inr ⟨-(f32val x), rfl, neg_nonpos.mpr hv⟩

theorem f32_as_u8_le (g : F32) : f32_as_u8 g ≤ 255 := by
  cases g with
  | nan => exact Nat.zero_le _
  | inf s => cases s <;> simp [f32_as_u8]
  | fin q =>
    simp only [f32_as_u8]
    split
    · exact Nat.zero_le _
    · split
      · exact le_refl _
      · rename_i hq0 hq255
        have hf : ⌊q⌋ < 255 := Int.floor_lt.mpr (by exact_mod_cast not_le.mp hq255)
        omega

/-- Rust's `g >= 1.0` on the f32 model (false on NaN, true on +∞). -/
def F32ge1 : F32 → Bool
  | F32.fin q => decide (1 ≤ q)
  | F32.inf s => !s
  | F32.nan => false

/-- Rust's `g < 0.0` on the f32 model (false on NaN, true on -∞). -/
def F32neg : F32 → Bool
  | F32.fin q => decide (q < 0)
  | F32.inf s => s
  | F32.nan => false

/-- C10: the per-sample decode `(255.0 * g) as u8` is total and saturating over
every 32-bit input pattern: inputs at or above 1.0 (including +∞) give 255,
negative inputs (including -∞) give 0, NaN gives 0, and the result is always a
valid 8-bit sample. -/
theorem C10_sample_saturates (b : Nat) (hb : b < 2^32) :
    (F32ge1 (bitsToF32 b) = true → sampleOfF32 (bitsToF32 b) = 255) ∧
    (F32neg (bitsToF32 b) = true → sampleOfF32 (bitsToF32 b) = 0) ∧
    (bitsToF32 b = F32.nan → sampleOfF32 (bitsToF32 b) = 0) ∧
    sampleOfF32 (bitsToF32 b) ≤ 255 := by
  refine ⟨?_, ?_, ?_, f32_as_u8_le _⟩
  · intro hge
    cases hg : bitsToF32 b with
    | nan => rw [hg] at hge; exact absurd hge (by simp [F32ge1])
    | inf s =>
      rw [hg] at hge
      have hs : s = false := by
        cases s
        · rfl
        · exact absurd hge (by simp [F32ge1])
      subst hs
      rfl
    | fin q =>
      rw [hg] at hge
      have h1q : (1:ℚ) ≤ q := of_decide_eq_true hge
      show f32_as_u8 (roundF32 ((255:ℚ) * q)) = 255
      have h255 : (255:ℚ) ≤ 255 * q := by nlinarith
      rcases roundF32_ge_255 ((255:ℚ) * q) h255 with h | ⟨v, hv, hv255⟩
      · rw [h]; rfl
      · rw [hv]
        simp only [f32_as_u8]
        rw [if_neg (not_le.mpr (lt_of_lt_of_le (by norm_num) hv255)), if_pos hv255]
  · intro hneg
    cases hg : bitsToF32 b with
    | nan => rw [hg] at hneg; exact absurd hneg (by simp [F32neg])
    | inf s =>
      rw [hg] at hneg
      have hs : s = true := by
        cases s
        · exact absurd hneg (by simp [F32neg])
        · rfl
      subst hs
      rfl
    | fin q =>
      rw [hg] at hneg
      have hq : q < 0 := of_decide_eq_true hneg
      show f32_as_u8 (roundF32 ((255:ℚ) * q)) = 0
      have hneg' : (255:ℚ) * q < 0 := mul_neg_of_pos_of_neg (by norm_num) hq
      rcases roundF32_of_neg ((255:ℚ) * q) hneg' with h | ⟨v, hv, hv0⟩
      · rw [h]; rfl
      · rw [hv]
        simp only [f32_as_u8]
        rw [if_pos hv0]
  · intro hnan
    rw [hnan]
    rfl

/-- C10 witness: the +∞ pattern `0x7F800000` is at or above 1.0 and decodes to
the saturated sample 255. -/
theorem C10_sample_saturates_witness :
    2139095040 < 2^32 ∧ F32ge1 (bitsToF32 2139095040) = true ∧
    sampleOfF32 (bitsToF32 2139095040) = 255 :=
  ⟨by decide, by decide, (C10_sample_saturates 2139095040 (by decide)).1 (by decide)⟩
